import Mathlib

/-!
Verification of the inventory management system (`inventory_m-sys/main.py`).

The development shallowly embeds the product hierarchy (`Electronics`,
`Grocery`, `Clothing`), the `Inventory` ledger and its persistence codec.
Python mutable state is modelled by explicit state passing: each `Inventory`
method becomes a function from the ordered list of products (the values of
the insertion-ordered dict `self._products`) to a new list plus an optional
error.  A raised `ValueError` is modelled by an `Err` value; since every
`raise` in the source happens before any mutation, the error branches return
the unchanged state.  Python ints are `Int`, prices are `ℚ` (exact decimals),
and the wall clock `datetime.now()` is an explicit `DateTime` parameter.
-/

namespace InventorySys

/-- Calendar date, as produced by `datetime.strptime(s, "%Y-%m-%d")`
(the time-of-day of such a datetime is midnight). -/
structure Date where
  year : Nat
  month : Nat
  day : Nat
  deriving DecidableEq, Repr

/-- Lexicographic strict order on dates, matching Python datetime comparison
restricted to midnight datetimes. -/
def Date.ltb (a b : Date) : Bool :=
  a.year < b.year ∨ (a.year = b.year ∧
    (a.month < b.month ∨ (a.month = b.month ∧ a.day < b.day)))

/-- An instant as returned by `datetime.now()`: a calendar date plus the
time elapsed since that date's midnight (`0` means exactly midnight). -/
structure DateTime where
  date : Date
  sinceMidnight : Nat
  deriving DecidableEq, Repr

/-- The check `datetime.now() > self.expiry_date` of `Grocery.is_expired`.
The stored `expiry_date` is the midnight datetime of the expiry calendar
date, so `now` is strictly greater exactly when `now`'s date is later, or
`now` is on the expiry date itself but strictly past midnight. -/
def isExpiredAt (now : DateTime) (expiry : Date) : Bool :=
  Date.ltb expiry now.date || (expiry == now.date && decide (0 < now.sinceMidnight))

/-! ### The date codec used by `strftime("%Y-%m-%d")` / `strptime(s, "%Y-%m-%d")` -/

/-- Gregorian leap-year rule (as used by Python `datetime`). -/
def isLeap (y : Nat) : Bool :=
  y % 4 == 0 && (y % 100 != 0 || y % 400 == 0)

/-- Number of days of month `m` of year `y` (months `1..12`). -/
def daysInMonth (y m : Nat) : Nat :=
  if m = 1 ∨ m = 3 ∨ m = 5 ∨ m = 7 ∨ m = 8 ∨ m = 10 ∨ m = 12 then 31
  else if m = 4 ∨ m = 6 ∨ m = 9 ∨ m = 11 then 30
  else if isLeap y then 29 else 28

/-- Dates representable by a Python `datetime` (`MINYEAR = 1`,
`MAXYEAR = 9999`) with a calendar-valid month and day.  Exactly these pass
`strptime(s, "%Y-%m-%d")` validation. -/
def Date.Valid (d : Date) : Prop :=
  1 ≤ d.year ∧ d.year ≤ 9999 ∧ 1 ≤ d.month ∧ d.month ≤ 12 ∧
    1 ≤ d.day ∧ d.day ≤ daysInMonth d.year d.month

instance (d : Date) : Decidable d.Valid := by
  unfold Date.Valid; infer_instance

/-- Character of a single decimal digit. -/
def digitChar (n : Nat) : Char := Char.ofNat (48 + n)

/-- Two-digit zero-padded decimal rendering (for `%m` and `%d`). -/
def pad2 (n : Nat) : List Char := [digitChar (n / 10), digitChar (n % 10)]

/-- Four-digit zero-padded decimal rendering (for `%Y`). -/
def pad4 (n : Nat) : List Char :=
  [digitChar (n / 1000), digitChar (n / 100 % 10), digitChar (n / 10 % 10),
    digitChar (n % 10)]

/-- The string `strftime("%Y-%m-%d")` produces for a date. -/
def formatDate (d : Date) : String :=
  ⟨pad4 d.year ++ '-' :: (pad2 d.month ++ '-' :: pad2 d.day)⟩

/-- Split a character list on the separator `'-'`. -/
def splitDash : List Char → List (List Char)
  | [] => [[]]
  | c :: rest =>
    if c = '-' then [] :: splitDash rest
    else
      match splitDash rest with
      | [] => [[c]]
      | h :: t => (c :: h) :: t

/-- Value of a decimal digit character, `none` for a non-digit. -/
def digitVal (c : Char) : Option Nat :=
  if c.isDigit then some (c.toNat - 48) else none

/-- Accumulating decimal evaluation of a digit run. -/
def natOfDigitsAux : Nat → List Char → Option Nat
  | acc, [] => some acc
  | acc, c :: rest =>
    match digitVal c with
    | some v => natOfDigitsAux (acc * 10 + v) rest
    | none => none

/-- Decimal value of a non-empty digit run, `none` otherwise. -/
def natOfDigits (l : List Char) : Option Nat :=
  match l with
  | [] => none
  | _ :: _ => natOfDigitsAux 0 l

/-- Behaviour of `datetime.strptime(s, "%Y-%m-%d")`: three dash-separated
decimal fields, with year, month and day validated against the calendar;
`none` models the raised `ValueError`. -/
def parseDate (s : String) : Option Date :=
  match splitDash s.data with
  | [ys, ms, ds] =>
    match natOfDigits ys, natOfDigits ms, natOfDigits ds with
    | some y, some m, some dd =>
      if (Date.mk y m dd).Valid then some ⟨y, m, dd⟩ else none
    | _, _, _ => none
  | _ => none

/-! ### Products -/

/-- Error taxonomy.  Every failure in the source is a raised `ValueError`;
the constructors name the messages:
`duplicateId` for "Product ID already exists", `notFound` for
"Product ID not found", `insufficientStock` for "Not enough stock to sell",
`expiredProduct` for "Cannot sell expired product", `unknownType` for
"Unknown product type", and `malformedField` for the `ValueError` that
`datetime.strptime` raises on an unparseable `expiry_date`. -/
inductive Err where
  | duplicateId (pid : String)
  | notFound (pid : String)
  | insufficientStock
  | expiredProduct
  | unknownType (tag : String)
  | malformedField
  deriving DecidableEq, Repr

/-- The closed `Product` hierarchy: `Electronics`, `Grocery`, `Clothing`.
Common fields are `product_id`, `name`, `price`, `quantity_in_stock`; each
variant carries its extra fields.  A `Grocery` stores its expiry as the
`Date` parsed by `strptime` in its constructor. -/
inductive Product where
  | electronics (product_id name : String) (price : ℚ) (quantity_in_stock : Int)
      (brand : String) (warranty_years : Int)
  | grocery (product_id name : String) (price : ℚ) (quantity_in_stock : Int)
      (expiry_date : Date)
  | clothing (product_id name : String) (price : ℚ) (quantity_in_stock : Int)
      (size : String) (material : String)
  deriving DecidableEq, Repr

namespace Product

/-- The `_product_id` field. -/
def product_id : Product → String
  | electronics pid _ _ _ _ _ => pid
  | grocery pid _ _ _ _ => pid
  | clothing pid _ _ _ _ _ => pid

/-- The `_name` field. -/
def name : Product → String
  | electronics _ n _ _ _ _ => n
  | grocery _ n _ _ _ => n
  | clothing _ n _ _ _ _ => n

/-- The `_price` field. -/
def price : Product → ℚ
  | electronics _ _ pr _ _ _ => pr
  | grocery _ _ pr _ _ => pr
  | clothing _ _ pr _ _ _ => pr

/-- The `_quantity_in_stock` field. -/
def qty : Product → Int
  | electronics _ _ _ st _ _ => st
  | grocery _ _ _ st _ => st
  | clothing _ _ _ st _ _ => st

/-- Replace the `_quantity_in_stock` field. -/
def withQty (st : Int) : Product → Product
  | electronics pid n pr _ b w => electronics pid n pr st b w
  | grocery pid n pr _ e => grocery pid n pr st e
  | clothing pid n pr _ s m => clothing pid n pr st s m

/-- Whether the record is a `Grocery` whose `is_expired()` returns true at
instant `now` (non-`Grocery` records never expire). -/
def isExpiredGrocery (now : DateTime) : Product → Bool
  | grocery _ _ _ _ e => isExpiredAt now e
  | _ => false

/-- The `restock` method: unconditionally `self._quantity_in_stock += amount`
(identical in all three variants). -/
def restock (amount : Int) (p : Product) : Product :=
  p.withQty (p.qty + amount)

/-- The `sell` method.  `Electronics.sell` and `Clothing.sell` raise
`InsufficientStock` when `quantity > self._quantity_in_stock` and decrement
otherwise; `Grocery.sell` first raises `ExpiredProduct` when `is_expired()`,
then applies the same stock check. -/
def sell (now : DateTime) (quantity : Int) (p : Product) : Except Err Product :=
  match p with
  | grocery _ _ _ st e =>
    if isExpiredAt now e then .error .expiredProduct
    else if quantity > st then .error .insufficientStock
    else .ok (p.withQty (st - quantity))
  | _ =>
    if quantity > p.qty then .error .insufficientStock
    else .ok (p.withQty (p.qty - quantity))

/-- The `get_total_value` method: `self._price * self._quantity_in_stock`. -/
def get_total_value (p : Product) : ℚ := p.price * (p.qty : ℚ)

end Product

/-! ### The Inventory ledger

`Inventory._products` is an insertion-ordered Python dict keyed by
`_product_id`; it is modelled by its list of values in insertion order
(keys are recoverable as `Product.product_id`, and uniqueness of keys is
the dict invariant).  Each method returns the new list of values plus an
optional raised error; since every `raise` happens before any mutation,
error branches return the state unchanged. -/

/-- Membership test `product_id in self._products`. -/
def hasId (inv : List Product) (pid : String) : Bool :=
  inv.any (fun p => p.product_id == pid)

/-- Dict lookup `self._products[product_id]` (on the model: first — and
under key uniqueness only — value with that id). -/
def lookup (inv : List Product) (pid : String) : Option Product :=
  inv.find? (fun p => p.product_id == pid)

/-- Dict value update at an existing key: replace the entry in place,
keeping its position. -/
def updateById : List Product → String → Product → List Product
  | [], _, _ => []
  | p :: rest, pid, q =>
    if p.product_id == pid then q :: rest else p :: updateById rest pid q

/-- Dict assignment `self._products[pid] = product`: replace in place if the
key exists, append otherwise. -/
def dictInsert (inv : List Product) (p : Product) : List Product :=
  if hasId inv p.product_id then updateById inv p.product_id p else inv ++ [p]

/-- Method `Inventory.add_product`: raise `DuplicateId` when the id is
already a key, otherwise `self._products[id] = product` (a fresh key, so an
append). -/
def add_product (inv : List Product) (p : Product) :
    List Product × Option Err :=
  if hasId inv p.product_id then (inv, some (.duplicateId p.product_id))
  else (inv ++ [p], none)

/-- Method `Inventory.remove_product`: delete the key if present, raise
`NotFound` otherwise. -/
def remove_product (inv : List Product) (pid : String) :
    List Product × Option Err :=
  if hasId inv pid then (inv.filter (fun p => p.product_id != pid), none)
  else (inv, some (.notFound pid))

/-- Method `Inventory.sell_product`: raise `NotFound` when the key is
absent, otherwise delegate to the record's `sell`, propagating its error. -/
def sell_product (inv : List Product) (pid : String) (quantity : Int)
    (now : DateTime) : List Product × Option Err :=
  match lookup inv pid with
  | none => (inv, some (.notFound pid))
  | some p =>
    match p.sell now quantity with
    | .error e => (inv, some e)
    | .ok q => (updateById inv pid q, none)

/-- Method `Inventory.restock_product`: raise `NotFound` when the key is
absent, otherwise delegate to the record's `restock` (which never fails). -/
def restock_product (inv : List Product) (pid : String) (quantity : Int) :
    List Product × Option Err :=
  match lookup inv pid with
  | none => (inv, some (.notFound pid))
  | some p => (updateById inv pid (p.restock quantity), none)

/-- Method `Inventory.total_inventory_value`: sum of `get_total_value`
over all records. -/
def total_inventory_value (inv : List Product) : ℚ :=
  (inv.map Product.get_total_value).sum

/-- Method `Inventory.remove_expired_products`: collect the ids of the
records that are `Grocery` and `is_expired()`, then delete those keys. -/
def remove_expired_products (inv : List Product) (now : DateTime) :
    List Product :=
  let toRemove :=
    (inv.filter (fun p => p.isExpiredGrocery now)).map Product.product_id
  inv.filter (fun p => !(toRemove.contains p.product_id))

/-! ### Persistence codec

`save_to_file` writes `json.dump` of the list `[p.to_dict() for p in
values]`; `load_from_file` reads it back with `json.load` and rebuilds the
dict.  The JSON text layer is a faithful bijection on these documents, so
the file is modelled by the parsed document: an ordered list of tagged
items.  The `Grocery` expiry travels as its wire string (`strftime` on
save, `strptime` in the constructor on load). -/

/-- One tagged object of the persisted document.  The first three
constructors are the shapes `to_dict` produces (the `type` tag being the
class name); `otherTag` stands for any item whose `"type"` value is none of
the three class names, which `load_from_file` rejects. -/
inductive DocItem where
  | electronics (product_id name : String) (price : ℚ) (quantity_in_stock : Int)
      (brand : String) (warranty_years : Int)
  | grocery (product_id name : String) (price : ℚ) (quantity_in_stock : Int)
      (expiry_date : String)
  | clothing (product_id name : String) (price : ℚ) (quantity_in_stock : Int)
      (size : String) (material : String)
  | otherTag (tag : String)
  deriving DecidableEq, Repr

/-- The `to_dict` methods: the base dict of common fields plus the variant's
extra fields, with a `Grocery` expiry rendered by `strftime("%Y-%m-%d")`. -/
def Product.to_dict : Product → DocItem
  | .electronics pid n pr st b w => .electronics pid n pr st b w
  | .grocery pid n pr st e => .grocery pid n pr st (formatDate e)
  | .clothing pid n pr st s m => .clothing pid n pr st s m

/-- Method `Inventory.save_to_file`: the document is the list of
`to_dict()` of all records in insertion order. -/
def save_to_file (inv : List Product) : List DocItem :=
  inv.map Product.to_dict

/-- The per-item branch of `load_from_file`: dispatch on the `type` tag,
build the matching `Product` (the `Grocery` constructor parsing the expiry
string with `strptime`, whose failure is `MalformedField`), and raise
`UnknownType` on any other tag. -/
def parseItem : DocItem → Except Err Product
  | .electronics pid n pr st b w => .ok (.electronics pid n pr st b w)
  | .grocery pid n pr st e =>
    match parseDate e with
    | some d => .ok (.grocery pid n pr st d)
    | none => .error .malformedField
  | .clothing pid n pr st s m => .ok (.clothing pid n pr st s m)
  | .otherTag t => .error (.unknownType t)

/-- The loop of `load_from_file` after `self._products.clear()`: parse the
items in order, assigning `self._products[pid] = product` one by one; a
parse failure raises at once, leaving the records inserted so far. -/
def loadGo (acc : List Product) : List DocItem → List Product × Option Err
  | [] => (acc, none)
  | d :: rest =>
    match parseItem d with
    | .error e => (acc, some e)
    | .ok p => loadGo (dictInsert acc p) rest

/-- Method `Inventory.load_from_file`: `self._products.clear()` discards the
prior mapping (hence `inv` is unused), then the items are parsed and
inserted one by one. -/
def load_from_file (inv : List Product) (doc : List DocItem) :
    List Product × Option Err :=
  loadGo [] doc

/-! ### Well-formedness

A `Grocery` can only be constructed from an expiry string accepted by
`strptime`, so every reachable record stores a `Valid` date; the dict keys
are exactly the stored ids, so they are pairwise distinct.  These two facts
are the hypotheses under which catalog-level statements are proved. -/

/-- Record well-formedness: a `Grocery` stores a calendar-valid expiry. -/
def Product.WF : Product → Prop
  | .grocery _ _ _ _ e => e.Valid
  | _ => True

instance (p : Product) : Decidable p.WF := by
  unfold Product.WF; cases p <;> infer_instance

/-- Catalog well-formedness: ids pairwise distinct (the dict-key invariant)
and every record well-formed. -/
def InvWF (inv : List Product) : Prop :=
  (inv.map Product.product_id).Nodup ∧ ∀ p ∈ inv, p.WF

instance (inv : List Product) : Decidable (InvWF inv) := by
  unfold InvWF; infer_instance

/-- The catalog stock invariant: every record has a non-negative
`quantity_in_stock`. -/
def InvNonneg (inv : List Product) : Prop := ∀ p ∈ inv, 0 ≤ p.qty

instance (inv : List Product) : Decidable (InvNonneg inv) := by
  unfold InvNonneg; infer_instance

/-- Document-item well-formedness per the data model: the stored
`quantity_in_stock` is non-negative (vacuous for an unknown tag, which
never parses). -/
def DocNonneg : DocItem → Prop
  | .electronics _ _ _ st _ _ => 0 ≤ st
  | .grocery _ _ _ st _ => 0 ≤ st
  | .clothing _ _ _ st _ _ => 0 ≤ st
  | .otherTag _ => True

instance (d : DocItem) : Decidable (DocNonneg d) := by
  unfold DocNonneg; cases d <;> infer_instance

/-! ### Lemmas: the date codec round-trips on valid dates -/

theorem digitVal_digitChar : ∀ k, k < 10 →
    digitVal (digitChar k) = some k ∧ digitChar k ≠ '-' := by decide

theorem natOfDigits_pad2 (n : Nat) (h : n ≤ 99) :
    natOfDigits (pad2 n) = some n := by
  have h1 := digitVal_digitChar (n / 10) (by omega)
  have h2 := digitVal_digitChar (n % 10) (by omega)
  simp only [pad2, natOfDigits, natOfDigitsAux, h1.1, h2.1, Option.some.injEq]
  omega

theorem natOfDigits_pad4 (n : Nat) (h : n ≤ 9999) :
    natOfDigits (pad4 n) = some n := by
  have h1 := digitVal_digitChar (n / 1000) (by omega)
  have h2 := digitVal_digitChar (n / 100 % 10) (by omega)
  have h3 := digitVal_digitChar (n / 10 % 10) (by omega)
  have h4 := digitVal_digitChar (n % 10) (by omega)
  simp only [pad4, natOfDigits, natOfDigitsAux, h1.1, h2.1, h3.1, h4.1,
    Option.some.injEq]
  omega

theorem pad2_no_dash (n : Nat) (h : n ≤ 99) : ∀ c ∈ pad2 n, c ≠ '-' := by
  have h1 := digitVal_digitChar (n / 10) (by omega)
  have h2 := digitVal_digitChar (n % 10) (by omega)
  simp only [pad2, List.mem_cons, List.not_mem_nil, or_false]
  rintro c (rfl | rfl)
  · exact h1.2
  · exact h2.2

theorem pad4_no_dash (n : Nat) (h : n ≤ 9999) : ∀ c ∈ pad4 n, c ≠ '-' := by
  have h1 := digitVal_digitChar (n / 1000) (by omega)
  have h2 := digitVal_digitChar (n / 100 % 10) (by omega)
  have h3 := digitVal_digitChar (n / 10 % 10) (by omega)
  have h4 := digitVal_digitChar (n % 10) (by omega)
  simp only [pad4, List.mem_cons, List.not_mem_nil, or_false]
  rintro c (rfl | rfl | rfl | rfl)
  · exact h1.2
  · exact h2.2
  · exact h3.2
  · exact h4.2

theorem splitDash_no_dash (l : List Char) (h : ∀ c ∈ l, c ≠ '-') :
    splitDash l = [l] := by
  induction l with
  | nil => rfl
  | cons c rest ih =>
    have hc : c ≠ '-' := h c (List.mem_cons_self c rest)
    have hrest : splitDash rest = [rest] :=
      ih fun x hx => h x (List.mem_cons_of_mem c hx)
    simp [splitDash, hc, hrest]

theorem splitDash_append (l r : List Char) (h : ∀ c ∈ l, c ≠ '-') :
    splitDash (l ++ '-' :: r) = l :: splitDash r := by
  induction l with
  | nil => simp [splitDash]
  | cons c rest ih =>
    have hc : c ≠ '-' := h c (List.mem_cons_self c rest)
    have htail := ih fun x hx => h x (List.mem_cons_of_mem c hx)
    simp only [List.cons_append, splitDash, if_neg hc, List.append_eq, htail]

/-- On any calendar-valid date, `strptime` undoes `strftime`: parsing the
formatted string recovers the date. -/
theorem parseDate_formatDate (d : Date) (h : d.Valid) :
    parseDate (formatDate d) = some d := by
  obtain ⟨hy1, hy2, hm1, hm2, hd1, hd2⟩ := h
  have hdm : d.day ≤ 99 := by
    have : daysInMonth d.year d.month ≤ 31 := by
      unfold daysInMonth; split <;> [omega; (split <;> [omega; (split <;> omega)])]
    omega
  have hsplit : splitDash (pad4 d.year ++ '-' :: (pad2 d.month ++ '-' :: pad2 d.day)) =
      [pad4 d.year, pad2 d.month, pad2 d.day] := by
    rw [splitDash_append _ _ (pad4_no_dash d.year hy2),
      splitDash_append _ _ (pad2_no_dash d.month (by omega)),
      splitDash_no_dash _ (pad2_no_dash d.day hdm)]
  show parseDate ⟨pad4 d.year ++ '-' :: (pad2 d.month ++ '-' :: pad2 d.day)⟩ = some d
  unfold parseDate
  simp only [hsplit, natOfDigits_pad4 d.year hy2,
    natOfDigits_pad2 d.month (by omega), natOfDigits_pad2 d.day hdm]
  rw [if_pos ⟨hy1, hy2, hm1, hm2, hd1, hd2⟩]

/-! ### Lemmas: products -/

@[simp] theorem qty_withQty (p : Product) (st : Int) : (p.withQty st).qty = st := by
  cases p <;> rfl

@[simp] theorem product_id_withQty (p : Product) (st : Int) :
    (p.withQty st).product_id = p.product_id := by
  cases p <;> rfl

@[simp] theorem price_withQty (p : Product) (st : Int) :
    (p.withQty st).price = p.price := by
  cases p <;> rfl

@[simp] theorem qty_restock (p : Product) (a : Int) :
    (p.restock a).qty = p.qty + a := by
  cases p <;> rfl

@[simp] theorem product_id_restock (p : Product) (a : Int) :
    (p.restock a).product_id = p.product_id := by
  cases p <;> rfl

theorem sell_ok (p : Product) (now : DateTime) (q : Int)
    (hexp : p.isExpiredGrocery now = false) (hq : q ≤ p.qty) :
    p.sell now q = .ok (p.withQty (p.qty - q)) := by
  cases p with
  | grocery pid n pr st e =>
    simp only [Product.isExpiredGrocery] at hexp
    simp only [Product.qty] at hq
    simp only [Product.sell, hexp, Bool.false_eq_true, if_false]
    rw [if_neg (by exact not_lt.mpr hq)]
    rfl
  | electronics pid n pr st b w =>
    simp only [Product.sell]
    rw [if_neg (by exact not_lt.mpr hq)]
  | clothing pid n pr st s m =>
    simp only [Product.sell]
    rw [if_neg (by exact not_lt.mpr hq)]

theorem sell_insufficient (p : Product) (now : DateTime) (q : Int)
    (hexp : p.isExpiredGrocery now = false) (hq : p.qty < q) :
    p.sell now q = .error .insufficientStock := by
  cases p with
  | grocery pid n pr st e =>
    simp only [Product.isExpiredGrocery] at hexp
    simp only [Product.qty] at hq
    simp only [Product.sell, hexp, Bool.false_eq_true, if_false]
    rw [if_pos hq]
  | electronics pid n pr st b w =>
    simp only [Product.sell]
    rw [if_pos hq]
  | clothing pid n pr st s m =>
    simp only [Product.sell]
    rw [if_pos hq]

theorem sell_expired (pid n : String) (pr : ℚ) (st : Int) (e : Date)
    (now : DateTime) (q : Int) (hexp : isExpiredAt now e = true) :
    (Product.grocery pid n pr st e).sell now q = .error .expiredProduct := by
  simp only [Product.sell, hexp, if_true]

/-! ### Lemmas: dict operations on the value list -/

theorem lookup_updateById (inv : List Product) (pid : String) (q : Product)
    (hq : q.product_id = pid) (h : hasId inv pid = true) :
    lookup (updateById inv pid q) pid = some q := by
  induction inv with
  | nil => simp [hasId] at h
  | cons a rest ih =>
    by_cases ha : (a.product_id == pid) = true
    · simp only [updateById, if_pos ha, lookup]
      exact List.find?_cons_of_pos rest (by simpa using hq)
    · have h' : hasId rest pid = true := by
        simp only [hasId, List.any_cons, Bool.or_eq_true] at h
        rcases h with h | h
        · exact absurd h ha
        · exact h
      simp only [updateById, if_neg ha, lookup]
      rw [List.find?_cons_of_neg _ (by simpa using ha)]
      exact ih h'

theorem mem_updateById (inv : List Product) (pid : String) (q x : Product)
    (hx : x ∈ updateById inv pid q) : x ∈ inv ∨ x = q := by
  induction inv with
  | nil => simp [updateById] at hx
  | cons a rest ih =>
    simp only [updateById] at hx
    by_cases ha : (a.product_id == pid) = true
    · rw [if_pos ha] at hx
      rcases List.mem_cons.mp hx with rfl | hx
      · right; rfl
      · left; exact List.mem_cons_of_mem a hx
    · rw [if_neg ha] at hx
      rcases List.mem_cons.mp hx with rfl | hx
      · left; exact List.mem_cons_self x rest
      · rcases ih hx with h | h
        · left; exact List.mem_cons_of_mem a h
        · right; exact h

theorem map_id_updateById (inv : List Product) (pid : String) (q : Product)
    (hq : q.product_id = pid) :
    (updateById inv pid q).map Product.product_id =
      inv.map Product.product_id := by
  induction inv with
  | nil => rfl
  | cons a rest ih =>
    simp only [updateById]
    by_cases ha : (a.product_id == pid) = true
    · rw [if_pos ha]
      simp only [List.map_cons, hq]
      rw [beq_iff_eq.mp ha]
    · rw [if_neg ha]
      simp only [List.map_cons, ih]

theorem lookup_eq_some_mem (inv : List Product) (pid : String) (p : Product)
    (h : lookup inv pid = some p) : p ∈ inv ∧ p.product_id = pid := by
  have hmem := List.find?_some h
  exact ⟨List.mem_of_find?_eq_some h, by simpa using hmem⟩

theorem hasId_of_lookup (inv : List Product) (pid : String) (p : Product)
    (h : lookup inv pid = some p) : hasId inv pid = true := by
  obtain ⟨hmem, hid⟩ := lookup_eq_some_mem inv pid p h
  simp only [hasId, List.any_eq_true]
  exact ⟨p, hmem, by simpa using hid⟩

/-! ### Lemmas: the loader -/

theorem parseItem_to_dict (p : Product) (h : p.WF) :
    parseItem p.to_dict = .ok p := by
  cases p with
  | electronics pid n pr st b w => rfl
  | grocery pid n pr st e =>
    simp only [Product.WF] at h
    simp only [Product.to_dict, parseItem, parseDate_formatDate e h]
  | clothing pid n pr st s m => rfl

theorem dictInsert_of_fresh (inv : List Product) (p : Product)
    (h : hasId inv p.product_id = false) : dictInsert inv p = inv ++ [p] := by
  simp only [dictInsert, h, Bool.false_eq_true, if_false]

theorem hasId_append (l₁ l₂ : List Product) (pid : String) :
    hasId (l₁ ++ l₂) pid = (hasId l₁ pid || hasId l₂ pid) :=
  List.any_append

theorem loadGo_save (inv : List Product) :
    ∀ acc : List Product, (∀ p ∈ inv, p.WF) →
    (∀ p ∈ inv, hasId acc p.product_id = false) →
    (inv.map Product.product_id).Nodup →
    loadGo acc (save_to_file inv) = (acc ++ inv, none) := by
  induction inv with
  | nil => intro acc _ _ _; simp [save_to_file, loadGo]
  | cons p rest ih =>
    intro acc hwf hdisj hnd
    have hp : parseItem p.to_dict = .ok p :=
      parseItem_to_dict p (hwf p (List.mem_cons_self p rest))
    have hins : dictInsert acc p = acc ++ [p] :=
      dictInsert_of_fresh acc p (hdisj p (List.mem_cons_self p rest))
    simp only [save_to_file, List.map_cons, loadGo, hp, hins]
    have hnd' := hnd
    simp only [List.map_cons, List.nodup_cons] at hnd'
    have hfresh : ∀ q ∈ rest, hasId (acc ++ [p]) q.product_id = false := by
      intro q hq
      rw [hasId_append]
      have h1 : hasId acc q.product_id = false :=
        hdisj q (List.mem_cons_of_mem p hq)
      have h2 : hasId [p] q.product_id = false := by
        simp only [hasId, List.any_cons, List.any_nil, Bool.or_false,
          beq_eq_false_iff_ne, ne_eq]
        intro hpq
        exact hnd'.1 (hpq ▸ List.mem_map_of_mem Product.product_id hq)
      rw [h1, h2]
      rfl
    have hstep := ih (acc ++ [p])
      (fun q hq => hwf q (List.mem_cons_of_mem p hq)) hfresh hnd'.2
    simpa only [save_to_file, List.append_assoc, List.singleton_append]
      using hstep

theorem loadGo_prefix_error (good : List DocItem) (bad : DocItem)
    (rest : List DocItem) (e : Err)
    (hgood : ∀ d ∈ good, ∃ p, parseItem d = .ok p)
    (hbad : parseItem bad = .error e) :
    ∀ acc : List Product,
      loadGo acc (good ++ bad :: rest) = ((loadGo acc good).1, some e) ∧
      (loadGo acc good).2 = none := by
  induction good with
  | nil =>
    intro acc
    refine ⟨?_, rfl⟩
    simp [loadGo, hbad]
  | cons d ds ih =>
    intro acc
    obtain ⟨p, hp⟩ := hgood d (List.mem_cons_self d ds)
    have htail := ih (fun x hx => hgood x (List.mem_cons_of_mem d hx))
      (dictInsert acc p)
    simpa only [List.cons_append, loadGo, hp] using htail

theorem mem_dictInsert (inv : List Product) (p x : Product)
    (hx : x ∈ dictInsert inv p) : x ∈ inv ∨ x = p := by
  unfold dictInsert at hx
  split at hx
  · exact mem_updateById inv p.product_id p x hx
  · rcases List.mem_append.mp hx with h | h
    · exact Or.inl h
    · exact Or.inr (by simpa using h)

theorem mem_loadGo (doc : List DocItem) :
    ∀ acc : List Product, ∀ x ∈ (loadGo acc doc).1,
      x ∈ acc ∨ ∃ d ∈ doc, parseItem d = .ok x := by
  induction doc with
  | nil => intro acc x hx; exact Or.inl hx
  | cons d ds ih =>
    intro acc x hx
    simp only [loadGo] at hx
    rcases he : parseItem d with e | p
    · rw [he] at hx
      exact Or.inl hx
    · rw [he] at hx
      rcases ih (dictInsert acc p) x hx with h | ⟨d₂, hd₂, hp₂⟩
      · rcases mem_dictInsert acc p x h with h | rfl
        · exact Or.inl h
        · exact Or.inr ⟨d, List.mem_cons_self d ds, he⟩
      · exact Or.inr ⟨d₂, List.mem_cons_of_mem d hd₂, hp₂⟩

/-! ### The claims -/

/-- Claim C2: for every catalog `C` (well-formed: dict keys distinct and
grocery expiry dates calendar-valid, as every reachable catalog is),
`load(save(C))` reconstructs a catalog equal to `C` field-for-field — the
very same list of records, grocery dates travelling as `YYYY-MM-DD`
strings — with no error, whatever the prior in-memory catalog was. -/
theorem C2_save_load_roundtrip (inv prior : List Product) (h : InvWF inv) :
    load_from_file prior (save_to_file inv) = (inv, none) := by
  have hgo := loadGo_save inv [] h.2 (fun p _ => rfl) h.1
  simpa only [load_from_file, List.nil_append] using hgo

/-- Witness for C2: a three-record catalog, one product of each category,
round-trips through the codec unchanged. -/
theorem C2_witness :
    load_from_file []
      (save_to_file
        [Product.electronics "E1" "Phone" 500 10 "Acme" 2,
         Product.grocery "G1" "Milk" 2 20 ⟨2025, 3, 4⟩,
         Product.clothing "C1" "Shirt" 25 15 "M" "Cotton"]) =
      ([Product.electronics "E1" "Phone" 500 10 "Acme" 2,
        Product.grocery "G1" "Milk" 2 20 ⟨2025, 3, 4⟩,
        Product.clothing "C1" "Shirt" 25 15 "M" "Cotton"], none) :=
  C2_save_load_roundtrip _ [] (by decide)

/-- Claim C3: selling any positive quantity of an expired `Grocery` record
fails with `ExpiredProduct`, regardless of the stock level (no relation
between the quantity and the stock is assumed), and the catalog — hence the
stock — is left unchanged; the expiry check precedes the stock check. -/
theorem C3_sell_expired_fails (inv : List Product) (pid pid₂ n : String)
    (pr : ℚ) (st : Int) (e : Date) (now : DateTime) (q : Int)
    (hl : lookup inv pid = some (.grocery pid₂ n pr st e))
    (hexp : isExpiredAt now e = true) (hq : 0 < q) :
    sell_product inv pid q now = (inv, some .expiredProduct) := by
  simp only [sell_product, hl, sell_expired pid₂ n pr st e now q hexp]

/-- Witness for C3: an expired grocery with stock 5 rejects a sale of 10
with `ExpiredProduct` (not `InsufficientStock`), leaving the catalog as it
was. -/
theorem C3_witness :
    sell_product [Product.grocery "G1" "Milk" 2 5 ⟨2024, 1, 1⟩] "G1" 10
        ⟨⟨2024, 6, 1⟩, 0⟩ =
      ([Product.grocery "G1" "Milk" 2 5 ⟨2024, 1, 1⟩],
        some Err.expiredProduct) :=
  C3_sell_expired_fails _ "G1" "G1" "Milk" 2 5 ⟨2024, 1, 1⟩ _ 10
    (by decide) (by decide) (by decide)

/-- Claim C7: `add_product` with an id already present fails with
`DuplicateId` and leaves the catalog unchanged; with a fresh id it inserts
the record (at the end, as a fresh dict key). -/
theorem C7_add_product (inv : List Product) (p : Product) :
    (hasId inv p.product_id = true →
      add_product inv p = (inv, some (.duplicateId p.product_id))) ∧
    (hasId inv p.product_id = false →
      add_product inv p = (inv ++ [p], none)) := by
  constructor
  · intro h
    simp only [add_product, h, if_true]
  · intro h
    simp only [add_product, h, Bool.false_eq_true, if_false]

/-- Witness for C7: adding a record with the taken id "E1" fails with
`DuplicateId` and changes nothing; adding one with the fresh id "E2"
appends it. -/
theorem C7_witness :
    add_product [Product.electronics "E1" "Phone" 500 10 "Acme" 2]
        (Product.electronics "E1" "Tablet" 300 4 "Acme" 1) =
      ([Product.electronics "E1" "Phone" 500 10 "Acme" 2],
        some (Err.duplicateId "E1")) ∧
    add_product [Product.electronics "E1" "Phone" 500 10 "Acme" 2]
        (Product.electronics "E2" "Tablet" 300 4 "Acme" 1) =
      ([Product.electronics "E1" "Phone" 500 10 "Acme" 2,
        Product.electronics "E2" "Tablet" 300 4 "Acme" 1], none) :=
  ⟨(C7_add_product _ _).1 (by decide), (C7_add_product _ _).2 (by decide)⟩

/-- Claim C8: for any id present in the catalog and any non-negative
amount, `restock_product` succeeds and the record's stock becomes
`oldStock + amount`; for an absent id it fails with `NotFound` and leaves
the catalog unchanged. -/
theorem C8_restock_product (inv : List Product) (pid : String) (a : Int) :
    (∀ p, lookup inv pid = some p → 0 ≤ a →
      restock_product inv pid a = (updateById inv pid (p.restock a), none) ∧
      lookup (restock_product inv pid a).1 pid = some (p.restock a) ∧
      (p.restock a).qty = p.qty + a) ∧
    (lookup inv pid = none →
      restock_product inv pid a = (inv, some (.notFound pid))) := by
  constructor
  · intro p hl _
    have hid := (lookup_eq_some_mem inv pid p hl).2
    have hhas := hasId_of_lookup inv pid p hl
    refine ⟨by simp only [restock_product, hl], ?_, by simp⟩
    simp only [restock_product, hl]
    exact lookup_updateById inv pid (p.restock a) (by simpa using hid) hhas
  · intro h
    simp only [restock_product, h]

/-- Witness for C8: restocking "C1" (stock 15) by 5 yields stock 20, and
restocking the absent id "Z9" fails with `NotFound`. -/
theorem C8_witness :
    lookup (restock_product [Product.clothing "C1" "Shirt" 25 15 "M" "Cotton"]
        "C1" 5).1 "C1" =
      some (Product.clothing "C1" "Shirt" 25 20 "M" "Cotton") ∧
    restock_product [Product.clothing "C1" "Shirt" 25 15 "M" "Cotton"] "Z9" 5 =
      ([Product.clothing "C1" "Shirt" 25 15 "M" "Cotton"],
        some (Err.notFound "Z9")) := by
  have h := C8_restock_product [Product.clothing "C1" "Shirt" 25 15 "M" "Cotton"]
    "C1" 5
  refine ⟨?_, (C8_restock_product _ "Z9" 5).2 (by decide)⟩
  have h1 := (h.1 (Product.clothing "C1" "Shirt" 25 15 "M" "Cotton")
    (by decide) (by decide)).2.1
  rw [h1]
  decide

/-- Claim C9: the total inventory value is the sum over all records of
`unitPrice * quantityInStock`; it is 0 on the empty catalog, and on the
spec's example catalog (Electronics at 500 with stock 10, Clothing at 25
with stock 15) it is 5375. -/
theorem C9_total_value :
    (∀ inv, total_inventory_value inv =
      (inv.map (fun p => p.price * (p.qty : ℚ))).sum) ∧
    total_inventory_value [] = 0 ∧
    total_inventory_value
      [Product.electronics "E1" "Phone" 500 10 "Acme" 2,
       Product.clothing "C1" "Shirt" 25 15 "M" "Cotton"] = 5375 := by
  refine ⟨fun inv => rfl, rfl, ?_⟩
  simp only [total_inventory_value, Product.get_total_value, Product.price,
    Product.qty, List.map_cons, List.map_nil, List.sum_cons, List.sum_nil]
  norm_num

/-- Claim C1 is false on the code: `load_from_file` clears the prior
mapping before parsing, so a failing record does not leave the prior
catalog unchanged.  Concretely, loading a document whose second item has
an unknown tag fails, yet the resulting mapping is not the prior one
(it holds the first document record instead). -/
theorem C1_counterexample :
    (load_from_file [Product.clothing "P0" "Shirt" 10 5 "M" "Cotton"]
        [DocItem.clothing "D1" "Pants" 20 3 "L" "Wool",
         DocItem.otherTag "Toy"]).2 = some (Err.unknownType "Toy") ∧
    (load_from_file [Product.clothing "P0" "Shirt" 10 5 "M" "Cotton"]
        [DocItem.clothing "D1" "Pants" 20 3 "L" "Wool",
         DocItem.otherTag "Toy"]).1 ≠
      [Product.clothing "P0" "Shirt" 10 5 "M" "Cotton"] := by
  decide

/-- Claim C1, amended: `load_from_file` is not atomic.  It first discards
the prior mapping (`clear()`), so when any record fails to parse the
resulting mapping consists of exactly the records parsed before the
failure — the successfully loaded prefix — independent of the prior
catalog, and the error of the failing record is raised. -/
theorem C1_load_not_atomic (prior : List Product) (good : List DocItem)
    (bad : DocItem) (rest : List DocItem) (e : Err)
    (hgood : ∀ d ∈ good, ∃ p, parseItem d = .ok p)
    (hbad : parseItem bad = .error e) :
    load_from_file prior (good ++ bad :: rest) =
      ((load_from_file prior good).1, some e) ∧
    (load_from_file prior good).2 = none ∧
    load_from_file prior good = load_from_file [] good := by
  have h := loadGo_prefix_error good bad rest e hgood hbad []
  exact ⟨h.1, h.2, rfl⟩

/-- Witness for the amended C1: with one good record before the unknown
tag, the failed load leaves exactly that one record, for an arbitrary
non-empty prior catalog. -/
theorem C1_witness :
    load_from_file [Product.electronics "P1" "TV" 300 1 "Acme" 1]
        [DocItem.clothing "D1" "Pants" 20 3 "L" "Wool",
         DocItem.otherTag "Gadget"] =
      ((load_from_file [Product.electronics "P1" "TV" 300 1 "Acme" 1]
          [DocItem.clothing "D1" "Pants" 20 3 "L" "Wool"]).1,
        some (Err.unknownType "Gadget")) :=
  (C1_load_not_atomic [Product.electronics "P1" "TV" 300 1 "Acme" 1]
    [DocItem.clothing "D1" "Pants" 20 3 "L" "Wool"]
    (DocItem.otherTag "Gadget") [] (Err.unknownType "Gadget")
    (by
      intro d hd
      rw [List.mem_singleton] at hd
      subst hd
      exact ⟨Product.clothing "D1" "Pants" 20 3 "L" "Wool", rfl⟩)
    rfl).1

/-- Claim C4 is false on the code: `is_expired` compares `datetime.now()`
against the *midnight* of the expiry date, so a grocery expiring today is
already expired any time strictly past midnight.  Concretely, at noon
(43200 s past midnight) of 2024-05-10 the sweep removes a grocery whose
expiry date is 2024-05-10 itself — a date not strictly before the current
date. -/
theorem C4_counterexample :
    remove_expired_products [Product.grocery "G1" "Milk" 2 5 ⟨2024, 5, 10⟩]
        ⟨⟨2024, 5, 10⟩, 43200⟩ = [] ∧
    Date.ltb ⟨2024, 5, 10⟩ (DateTime.mk ⟨2024, 5, 10⟩ 43200).date = false := by
  decide

/-- Claim C4, amended: on a catalog with distinct ids (the dict-key
invariant), `remove_expired_products` removes exactly the Grocery records
whose expiry midnight is strictly before the current instant — that is,
expiry date strictly before the current date, or equal to it when the
current time is strictly past midnight — and leaves every Electronics,
Clothing and non-expired Grocery record untouched, in order. -/
theorem C4_sweep_exact (inv : List Product) (now : DateTime)
    (hnd : (inv.map Product.product_id).Nodup) :
    remove_expired_products inv now =
      inv.filter (fun p => !(p.isExpiredGrocery now)) := by
  unfold remove_expired_products
  refine List.filter_congr ?_
  intro p hp
  suffices h : (((inv.filter (fun q => q.isExpiredGrocery now)).map
      Product.product_id).contains p.product_id) = p.isExpiredGrocery now by
    rw [h]
  by_cases he : p.isExpiredGrocery now = true
  · rw [he]
    rw [List.elem_iff]
    exact List.mem_map_of_mem Product.product_id
      (List.mem_filter.mpr ⟨hp, he⟩)
  · rw [Bool.not_eq_true] at he
    rw [he]
    rw [Bool.eq_false_iff]
    intro hc
    rw [List.elem_iff] at hc
    obtain ⟨q, hq, hqid⟩ := List.mem_map.mp hc
    obtain ⟨hqinv, hqexp⟩ := List.mem_filter.mp hq
    have : q = p := List.inj_on_of_nodup_map hnd hqinv hp hqid
    rw [this] at hqexp
    rw [he] at hqexp
    exact Bool.false_ne_true hqexp

/-- Witness for the amended C4: a four-record catalog at noon of
2024-05-10 loses exactly its two code-expired groceries (one expired
yesterday, one expiring today), keeping the electronics, the clothing and
the grocery expiring tomorrow. -/
theorem C4_witness :
    remove_expired_products
        [Product.electronics "E1" "Phone" 500 10 "Acme" 2,
         Product.grocery "G1" "Milk" 2 5 ⟨2024, 5, 9⟩,
         Product.grocery "G2" "Eggs" 3 6 ⟨2024, 5, 10⟩,
         Product.grocery "G3" "Tea" 4 7 ⟨2024, 5, 11⟩,
         Product.clothing "C1" "Shirt" 25 15 "M" "Cotton"]
        ⟨⟨2024, 5, 10⟩, 43200⟩ =
      [Product.electronics "E1" "Phone" 500 10 "Acme" 2,
       Product.grocery "G3" "Tea" 4 7 ⟨2024, 5, 11⟩,
       Product.clothing "C1" "Shirt" 25 15 "M" "Cotton"] := by
  have h := C4_sweep_exact
    [Product.electronics "E1" "Phone" 500 10 "Acme" 2,
     Product.grocery "G1" "Milk" 2 5 ⟨2024, 5, 9⟩,
     Product.grocery "G2" "Eggs" 3 6 ⟨2024, 5, 10⟩,
     Product.grocery "G3" "Tea" 4 7 ⟨2024, 5, 11⟩,
     Product.clothing "C1" "Shirt" 25 15 "M" "Cotton"]
    ⟨⟨2024, 5, 10⟩, 43200⟩ (by decide)
  rw [h]
  decide

/-- Claim C5 is false as stated on the code: for an expired Grocery the
expiry check precedes the stock check, so with stock 5 and a requested
quantity of 10 the sale fails with `ExpiredProduct`, not
`InsufficientStock`. -/
theorem C5_counterexample :
    lookup [Product.grocery "G1" "Milk" 2 5 ⟨2024, 1, 1⟩] "G1" =
      some (Product.grocery "G1" "Milk" 2 5 ⟨2024, 1, 1⟩) ∧
    (Product.grocery "G1" "Milk" 2 5 ⟨2024, 1, 1⟩).qty < 10 ∧
    (sell_product [Product.grocery "G1" "Milk" 2 5 ⟨2024, 1, 1⟩] "G1" 10
        ⟨⟨2024, 6, 1⟩, 0⟩).2 ≠ some Err.insufficientStock := by
  decide

/-- Claim C5, amended: for a record present in the catalog that is not an
expired Grocery, selling `q ≤ stock` succeeds and leaves the record with
stock `oldStock - q`, and selling `q > stock` fails with
`InsufficientStock`, the catalog unchanged.  (An *expired* Grocery instead
fails with `ExpiredProduct` in both cases, per C3.) -/
theorem C5_sell_cases (inv : List Product) (pid : String) (q : Int)
    (now : DateTime) (p : Product) (hl : lookup inv pid = some p)
    (hexp : p.isExpiredGrocery now = false) :
    (q ≤ p.qty →
      sell_product inv pid q now =
        (updateById inv pid (p.withQty (p.qty - q)), none) ∧
      lookup (sell_product inv pid q now).1 pid =
        some (p.withQty (p.qty - q))) ∧
    (p.qty < q →
      sell_product inv pid q now = (inv, some Err.insufficientStock)) := by
  constructor
  · intro hq
    have heq : sell_product inv pid q now =
        (updateById inv pid (p.withQty (p.qty - q)), none) := by
      simp only [sell_product, hl, sell_ok p now q hexp hq]
    refine ⟨heq, ?_⟩
    rw [heq]
    exact lookup_updateById inv pid _
      (by simp [(lookup_eq_some_mem inv pid p hl).2])
      (hasId_of_lookup inv pid p hl)
  · intro hq
    simp only [sell_product, hl, sell_insufficient p now q hexp hq]

/-- Witness for the amended C5: from a clothing record with stock 15,
selling 6 succeeds leaving stock 9, and selling 16 fails with
`InsufficientStock`, the catalog unchanged. -/
theorem C5_witness :
    lookup (sell_product [Product.clothing "C1" "Shirt" 25 15 "M" "Cotton"]
        "C1" 6 ⟨⟨2024, 6, 1⟩, 0⟩).1 "C1" =
      some (Product.clothing "C1" "Shirt" 25 9 "M" "Cotton") ∧
    sell_product [Product.clothing "C1" "Shirt" 25 15 "M" "Cotton"]
        "C1" 16 ⟨⟨2024, 6, 1⟩, 0⟩ =
      ([Product.clothing "C1" "Shirt" 25 15 "M" "Cotton"],
        some Err.insufficientStock) := by
  constructor
  · have h := (C5_sell_cases [Product.clothing "C1" "Shirt" 25 15 "M" "Cotton"]
      "C1" 6 ⟨⟨2024, 6, 1⟩, 0⟩ (Product.clothing "C1" "Shirt" 25 15 "M" "Cotton")
      (by decide) (by decide)).1 (by decide)
    rw [h.2]
    decide
  · exact (C5_sell_cases [Product.clothing "C1" "Shirt" 25 15 "M" "Cotton"]
      "C1" 16 ⟨⟨2024, 6, 1⟩, 0⟩ (Product.clothing "C1" "Shirt" 25 15 "M" "Cotton")
      (by decide) (by decide)).2 (by decide)

/-- Claim C10: `sell` performs no positivity check on its quantity.  For an
in-stock, non-expired record, a non-positive quantity `q` passes the stock
check (`q ≤ 0 ≤ stock`), so the sale "succeeds": with `q = 0` the stock is
unchanged, and with `q = -n` (`n > 0`) the stock *increases* to
`stock + n`, the record being left with stock `oldStock - q`. -/
theorem C10_nonpositive_sell (inv : List Product) (pid : String) (q : Int)
    (now : DateTime) (p : Product) (hl : lookup inv pid = some p)
    (hexp : p.isExpiredGrocery now = false) (hst : 0 ≤ p.qty) (hq : q ≤ 0) :
    (sell_product inv pid q now).2 = none ∧
    lookup (sell_product inv pid q now).1 pid =
      some (p.withQty (p.qty - q)) := by
  have hq' : q ≤ p.qty := le_trans hq hst
  have heq : sell_product inv pid q now =
      (updateById inv pid (p.withQty (p.qty - q)), none) := by
    simp only [sell_product, hl, sell_ok p now q hexp hq']
  rw [heq]
  exact ⟨rfl, lookup_updateById inv pid _
    (by simp [(lookup_eq_some_mem inv pid p hl).2])
    (hasId_of_lookup inv pid p hl)⟩

/-- Witness for C10: selling quantity 0 leaves stock 15 unchanged and
raises no error; selling quantity -3 raises no error and *increases* the
stock to 18. -/
theorem C10_witness :
    (sell_product [Product.clothing "C1" "Shirt" 25 15 "M" "Cotton"]
        "C1" 0 ⟨⟨2024, 6, 1⟩, 0⟩).2 = none ∧
    lookup (sell_product [Product.clothing "C1" "Shirt" 25 15 "M" "Cotton"]
        "C1" 0 ⟨⟨2024, 6, 1⟩, 0⟩).1 "C1" =
      some (Product.clothing "C1" "Shirt" 25 15 "M" "Cotton") ∧
    (sell_product [Product.clothing "C1" "Shirt" 25 15 "M" "Cotton"]
        "C1" (-3) ⟨⟨2024, 6, 1⟩, 0⟩).2 = none ∧
    lookup (sell_product [Product.clothing "C1" "Shirt" 25 15 "M" "Cotton"]
        "C1" (-3) ⟨⟨2024, 6, 1⟩, 0⟩).1 "C1" =
      some (Product.clothing "C1" "Shirt" 25 18 "M" "Cotton") := by
  have h0 := C10_nonpositive_sell
    [Product.clothing "C1" "Shirt" 25 15 "M" "Cotton"] "C1" 0
    ⟨⟨2024, 6, 1⟩, 0⟩ (Product.clothing "C1" "Shirt" 25 15 "M" "Cotton")
    (by decide) (by decide) (by decide) (by decide)
  have h3 := C10_nonpositive_sell
    [Product.clothing "C1" "Shirt" 25 15 "M" "Cotton"] "C1" (-3)
    ⟨⟨2024, 6, 1⟩, 0⟩ (Product.clothing "C1" "Shirt" 25 15 "M" "Cotton")
    (by decide) (by decide) (by decide) (by decide)
  refine ⟨h0.1, ?_, h3.1, ?_⟩
  · rw [h0.2]
    decide
  · rw [h3.2]
    decide

theorem sell_ok_qty (p : Product) (now : DateTime) (q : Int) (r : Product)
    (hs : p.sell now q = .ok r) : r.qty = p.qty - q ∧ q ≤ p.qty := by
  cases p with
  | grocery pid n pr st e =>
    simp only [Product.sell] at hs
    split at hs
    · exact absurd hs (by simp)
    · split at hs
      · exact absurd hs (by simp)
      · rename_i hgt
        injection hs with hr
        subst hr
        refine ⟨?_, not_lt.mp hgt⟩
        rw [qty_withQty]
        rfl
  | electronics pid n pr st b w =>
    simp only [Product.sell] at hs
    split at hs
    · exact absurd hs (by simp)
    · rename_i hgt
      injection hs with hr
      subst hr
      refine ⟨?_, not_lt.mp hgt⟩
      rw [qty_withQty]
  | clothing pid n pr st s m =>
    simp only [Product.sell] at hs
    split at hs
    · exact absurd hs (by simp)
    · rename_i hgt
      injection hs with hr
      subst hr
      refine ⟨?_, not_lt.mp hgt⟩
      rw [qty_withQty]

theorem parseItem_qty (d : DocItem) (x : Product)
    (hp : parseItem d = .ok x) (hd : DocNonneg d) : 0 ≤ x.qty := by
  cases d with
  | electronics pid n pr st b w =>
    simp only [parseItem] at hp
    injection hp with h
    subst h
    exact hd
  | grocery pid n pr st e =>
    simp only [parseItem] at hp
    split at hp
    · injection hp with h
      subst h
      exact hd
    · exact absurd hp (by simp)
  | clothing pid n pr st s m =>
    simp only [parseItem] at hp
    injection hp with h
    subst h
    exact hd
  | otherTag t =>
    exact absurd hp (by simp [parseItem])

/-- Claim C6: if every record in the catalog has non-negative stock, then
each operation preserves that invariant — `add` of a record with
non-negative stock (records per the data model), `remove`, `sell` with a
positive quantity, `restock` with a positive amount, the expiry sweep, and
`load` of a document whose items carry non-negative stock (as every
document written by `save` from such a catalog does). -/
theorem C6_stock_invariant (inv : List Product) (h : InvNonneg inv) :
    (∀ p, 0 ≤ p.qty → InvNonneg (add_product inv p).1) ∧
    (∀ pid, InvNonneg (remove_product inv pid).1) ∧
    (∀ pid q now, 0 < q → InvNonneg (sell_product inv pid q now).1) ∧
    (∀ pid a, 0 < a → InvNonneg (restock_product inv pid a).1) ∧
    (∀ now, InvNonneg (remove_expired_products inv now)) ∧
    (∀ doc, (∀ d ∈ doc, DocNonneg d) →
      InvNonneg (load_from_file inv doc).1) := by
  refine ⟨?_, ?_, ?_, ?_, ?_, ?_⟩
  · intro p hp x hx
    unfold add_product at hx
    split at hx
    · exact h x hx
    · rcases List.mem_append.mp hx with hx | hx
      · exact h x hx
      · rw [List.mem_singleton] at hx
        subst hx
        exact hp
  · intro pid x hx
    unfold remove_product at hx
    split at hx
    · exact h x (List.mem_filter.mp hx).1
    · exact h x hx
  · intro pid q now _ x hx
    rcases hl : lookup inv pid with _ | p
    · simp only [sell_product, hl] at hx
      exact h x hx
    · rcases hs : p.sell now q with e | r
      · simp only [sell_product, hl, hs] at hx
        exact h x hx
      · simp only [sell_product, hl, hs] at hx
        rcases mem_updateById inv pid r x hx with hmem | rfl
        · exact h x hmem
        · have hqty := sell_ok_qty p now q x hs
          have hp := h p (lookup_eq_some_mem inv pid p hl).1
          rw [hqty.1]
          omega
  · intro pid a ha x hx
    rcases hl : lookup inv pid with _ | p
    · simp only [restock_product, hl] at hx
      exact h x hx
    · simp only [restock_product, hl] at hx
      rcases mem_updateById inv pid (p.restock a) x hx with hmem | rfl
      · exact h x hmem
      · have hp := h p (lookup_eq_some_mem inv pid p hl).1
        rw [qty_restock]
        omega
  · intro now x hx
    unfold remove_expired_products at hx
    exact h x (List.mem_filter.mp hx).1
  · intro doc hdoc x hx
    rcases mem_loadGo doc [] x hx with hmem | ⟨d, hd, hp⟩
    · exact absurd hmem (List.not_mem_nil x)
    · exact parseItem_qty d x hp (hdoc d hd)

/-- Witness for C6: from a catalog of one clothing record with stock 15,
adding, selling 6, restocking 3 and loading a one-grocery document all
yield catalogs with every stock non-negative. -/
theorem C6_witness :
    InvNonneg (add_product [Product.clothing "C1" "Shirt" 25 15 "M" "Cotton"]
      (Product.electronics "E1" "Phone" 500 10 "Acme" 2)).1 ∧
    InvNonneg (sell_product [Product.clothing "C1" "Shirt" 25 15 "M" "Cotton"]
      "C1" 6 ⟨⟨2024, 6, 1⟩, 0⟩).1 ∧
    InvNonneg (restock_product
      [Product.clothing "C1" "Shirt" 25 15 "M" "Cotton"] "C1" 3).1 ∧
    InvNonneg (load_from_file
      [Product.clothing "C1" "Shirt" 25 15 "M" "Cotton"]
      [DocItem.grocery "G1" "Milk" 2 7 "2025-03-04"]).1 := by
  have h := C6_stock_invariant [Product.clothing "C1" "Shirt" 25 15 "M" "Cotton"]
    (by decide)
  exact ⟨h.1 (Product.electronics "E1" "Phone" 500 10 "Acme" 2) (by decide),
    h.2.2.1 "C1" 6 ⟨⟨2024, 6, 1⟩, 0⟩ (by decide),
    h.2.2.2.1 "C1" 3 (by decide),
    h.2.2.2.2.2 [DocItem.grocery "G1" "Milk" 2 7 "2025-03-04"] (by decide)⟩

end InventorySys
